import Mathlib

/-! The program `to_epub.cxx`.

A shallow embedding of `src/to_epub.cxx`, the helper that assembles one
`pandoc` command line from a fixed list of HTML fragments, echoes it and
hands it to `system`.

`std::string` is embedded as `String` (every literal of the program is
ASCII, so characters and bytes coincide), `std::vector<std::string>` as
`List String`, and the process's standard output and its call of `system`
as an explicit `World` that is threaded through `main`.

The surroundings of a run decide two things the program does not control:
what the command interpreter does with the command, and whether a write to
the standard output succeeds. A failed write puts `std::cout` into a failed
state, in which later insertions write nothing. The model follows a run up
to the return of `main`; a process that a signal ends on the way (a write to
a closed pipe under the default disposition of `SIGPIPE`) is not a run of
this model.
-/

namespace ToEpub

/-! ## Data -/

/-- The vector `contents` of `main` (lines 16-37), in declared order. -/
def contents : List String :=
  [ "splash.html ",
    "contents.html ",
    "chapter1_introduction.html ",
    "chapter2_installation.html ",
    "chapter3_basics.html ",
    "chapter4_interactive_prompt.html ",
    "chapter5_languages.html ",
    "chapter6_parsing.html ",
    "chapter7_evaluation.html ",
    "chapter8_error_handling.html ",
    "chapter9_s_expressions.html ",
    "chapter10_q_expressions.html ",
    "chapter11_variables.html ",
    "chapter12_functions.html ",
    "chapter13_conditionals.html ",
    "chapter14_strings.html ",
    "chapter15_standard_library.html ",
    "chapter16_bonus_projects.html ",
    "credits.html ",
    "appendix_a_hand_rolled_parser.html " ]

/-- The initial value of the variable `cmd` (lines 39-43): three adjacent
string literals, which the compiler joins into one. -/
def cmdInit : String :=
  "pandoc " ++
  "--epub-stylesheet=mystyle.css " ++
  "-S -o main.epub "

/-! ## The command builder -/

/-- The three-argument `std::accumulate(first, last, init)` at element type
`std::string`: the loop `for (; first != last; ++first) init = init + *first;`
followed by `return init;`, where `+` is string concatenation. -/
def accumulate : List String → String → String
  | [], init => init
  | x :: rest, init => accumulate rest (init ++ x)

/-- The value of `cmd` after line 45, for an arbitrary manifest. -/
def buildCommand (manifest : List String) : String :=
  accumulate manifest cmdInit

/-! ## The process model -/

/-- What one call of `system` reports back: the status it returns (zero,
non-zero, or `-1` when no child could be created) and the bytes the child
wrote to the inherited standard output while the caller was blocked. -/
structure SysResult where
  status : Int
  output : String

/-- What one attempt to write the buffered bytes to the standard output
comes to: all of them are written, or the write fails after `written` of
them (none at all on a full device or a closed descriptor). -/
inductive WriteResult where
  | ok
  | error (written : Nat)
  deriving DecidableEq

/-- The surroundings of one run: how the command interpreter reacts to a
command string, and what the `n`-th attempt of the process to write bytes to
its standard output comes to. -/
structure Env where
  system : String → SysResult
  write : Nat → String → WriteResult

/-- An externally visible action of the program itself. -/
inductive Event where
  | write (bytes : String)
  | system (command : String)
  deriving DecidableEq

/-- The state threaded through `main`: the bytes held in the buffer of
`std::cout`, whether the stream has left the good state, the number of
writes attempted so far, everything that has reached the standard output
(from the program or from a child), and the program's own actions in order. -/
structure World where
  coutBuf : String
  coutBad : Bool
  writes : Nat
  stdout : String
  trace : List Event

/-- The state at entry of `main`. -/
def World.init : World :=
  { coutBuf := "", coutBad := false, writes := 0, stdout := "", trace := [] }

/-- The insertion `std::cout << s`: on a stream in the good state the bytes
go to the stream buffer; on a failed stream nothing is inserted. -/
def coutPut (s : String) (w : World) : World :=
  if w.coutBad then w else { w with coutBuf := w.coutBuf ++ s }

/-- The bytes of one write that got out reach the standard output. -/
def emit (bytes : String) (w : World) : World :=
  if bytes = "" then w
  else { w with stdout := w.stdout ++ bytes, trace := w.trace ++ [Event.write bytes] }

/-- The call `std::cout.flush()`: a non-empty buffer is written out. When
the write fails, the bytes it did not write are lost and the stream leaves
the good state. -/
def coutFlush (env : Env) (w : World) : World :=
  if w.coutBuf = "" then w
  else
    match env.write w.writes w.coutBuf with
    | WriteResult.ok =>
      emit w.coutBuf { w with coutBuf := "", writes := w.writes + 1 }
    | WriteResult.error written =>
      emit (String.mk (w.coutBuf.data.take written))
        { w with coutBuf := "", coutBad := true, writes := w.writes + 1 }

/-- The manipulator `std::endl`: insert a newline, then flush. -/
def endl (env : Env) (w : World) : World :=
  coutFlush env (coutPut "\n" w)

/-- The member `std::string::c_str()`: the bytes up to the first NUL, which
is what a reader of the C string sees. -/
def c_str (s : String) : String :=
  String.mk (s.data.takeWhile (fun c => c ≠ Char.ofNat 0))

/-- The call `system(command)`: the command is handed to the interpreter,
the caller blocks while the child writes to the shared standard output, and
the interpreter's status is the return value. It does not flush `std::cout`
and does not look at its state. -/
def system (env : Env) (command : String) (w : World) : World × Int :=
  let r := env.system command
  ({ w with stdout := w.stdout ++ r.output,
            trace := w.trace ++ [Event.system command] }, r.status)

/-- The function `main` (lines 12-51). The result is the final state and the
value returned by `main`, the exit code. The stream is flushed once more
when the process exits. -/
def main (_argc : Int) (_argv : List String) (env : Env) : World × Int :=
  let w := endl env (coutPut "Converting to epub" World.init)
  let cmd := cmdInit
  let cmd := accumulate contents cmd
  let w := endl env (coutPut cmd w)
  let (w, _) := system env (c_str cmd) w
  (coutFlush env w, 0)

/-- Surroundings in which every write to the standard output succeeds and
the interpreter reports what `sys` says. -/
def writableEnv (sys : String → SysResult) : Env :=
  { system := sys, write := fun _ _ => WriteResult.ok }

/-- A run with a writable standard output and a silent, successful child. -/
def plainEnv : Env :=
  writableEnv fun _ => { status := 0, output := "" }

/-- A run with the standard output on a full device (`/dev/full`): every
write fails with nothing written; the child is silent and successful. -/
def fullEnv : Env :=
  { system := fun _ => { status := 0, output := "" },
    write := fun _ _ => WriteResult.error 0 }

/-- The bytes the program itself wrote to the standard output. -/
def ownOutput (w : World) : String :=
  String.join (w.trace.filterMap fun e =>
    match e with
    | Event.write b => some b
    | Event.system _ => none)

/-- The command strings handed to the interpreter, in order. -/
def executed (w : World) : List String :=
  w.trace.filterMap fun e =>
    match e with
    | Event.write _ => none
    | Event.system c => some c

/-! ## Vocabulary of the specification -/

/-- The command string the specification quotes for the unmodified manifest. -/
def referenceCommand : String :=
  "pandoc --epub-stylesheet=mystyle.css -S -o main.epub splash.html contents.html chapter1_introduction.html chapter2_installation.html chapter3_basics.html chapter4_interactive_prompt.html chapter5_languages.html chapter6_parsing.html chapter7_evaluation.html chapter8_error_handling.html chapter9_s_expressions.html chapter10_q_expressions.html chapter11_variables.html chapter12_functions.html chapter13_conditionals.html chapter14_strings.html chapter15_standard_library.html chapter16_bonus_projects.html credits.html appendix_a_hand_rolled_parser.html "

/-- The name part of a manifest entry: everything but its last character. -/
def entryName (e : String) : List Char :=
  e.data.dropLast

/-- An entry in the shape the manifest promises: a non-empty name without a
space, followed by one space. -/
def EntryWellFormed (e : String) : Prop :=
  e.data.getLast? = some ' ' ∧ entryName e ≠ [] ∧ ' ' ∉ entryName e

instance : DecidablePred EntryWellFormed := fun e => by
  unfold EntryWellFormed
  infer_instance

/-- Cut a character sequence at every space; between two adjacent spaces, and
before a leading or after a trailing one, the piece is empty. -/
def splitSpaces : List Char → List (List Char)
  | [] => [[]]
  | c :: cs =>
    if c = ' ' then [] :: splitSpaces cs
    else
      match splitSpaces cs with
      | [] => [[c]]
      | t :: ts => (c :: t) :: ts

/-- The space-delimited tokens of a character sequence: its pieces between
spaces, the empty pieces dropped. -/
def tokens (s : List Char) : List (List Char) :=
  (splitSpaces s).filter fun t => decide (t ≠ [])

/-- The five tokens of the fixed part of the command: the tool, its flags
and the argument of `-o`. -/
def flagTokens : List (List Char) :=
  ["pandoc".data, "--epub-stylesheet=mystyle.css".data, "-S".data, "-o".data,
   "main.epub".data]

/-- The filename tokens of a command: its tokens after the five leading
tokens of the fixed part. -/
def filenameTokens (s : String) : List (List Char) :=
  (tokens s.data).drop 5

/-- Checks that no two neighbouring characters are both spaces. -/
def noDoubleSpace : List Char → Bool
  | a :: b :: rest => !(a == ' ' && b == ' ') && noDoubleSpace (b :: rest)
  | _ => true

/-- The characters the command is claimed to consist of: lowercase ASCII
letters, decimal digits, the letter `S`, and `_ . - =` and the space. -/
def allowedChar (c : Char) : Bool :=
  c.isLower || c.isDigit || c == 'S' || c == '_' || c == '.' || c == '-' ||
    c == '=' || c == ' '

/-- Characters with a special meaning to the shell: single quote, double
quote, backslash, `$ ; | & < > * ? ( )`, backtick, tab and newline. -/
def shellMeta : List Char :=
  [Char.ofNat 39, Char.ofNat 34, Char.ofNat 92, '$', ';', '|', '&', '<', '>',
   '*', '?', '(', ')', Char.ofNat 96, Char.ofNat 9, Char.ofNat 10]

set_option maxRecDepth 8000

/-! ## The command builder is a plain concatenation -/

theorem accumulate_data (m : List String) (init : String) :
    (accumulate m init).data = init.data ++ (m.map String.data).flatten := by
  induction m generalizing init with
  | nil => simp [accumulate]
  | cons x rest ih => simp [accumulate, ih, String.data_append, List.append_assoc]

theorem accumulate_length (m : List String) (init : String) :
    (accumulate m init).length = init.length + (m.map String.length).sum := by
  induction m generalizing init with
  | nil => simp [accumulate]
  | cons x rest ih =>
    simp only [accumulate, ih, String.length_append, List.map_cons, List.sum_cons]
    omega

/-- C1: for every manifest the built command is the fixed part followed by
the entries in declared order, nothing added, dropped, merged or moved; the
empty manifest gives the fixed part alone. -/
theorem buildCommand_eq_concat (m : List String) :
    cmdInit = "pandoc --epub-stylesheet=mystyle.css -S -o main.epub " ∧
    (buildCommand m).data = cmdInit.data ++ (m.map String.data).flatten ∧
    (buildCommand m).length = cmdInit.length + (m.map String.length).sum ∧
    buildCommand [] = cmdInit := by
  exact ⟨by decide, accumulate_data m cmdInit, accumulate_length m cmdInit, rfl⟩

/-- C2: the unmodified manifest gives the reference command, byte for byte. -/
theorem buildCommand_contents :
    buildCommand contents = referenceCommand ∧
    referenceCommand.data.getLast? = some ' ' := by
  decide

/-- C3: the exit code is zero in every run, and neither the final state nor
the exit code depends on the status that `system` reported. -/
theorem main_exit_zero (argc : Int) (argv : List String) (env : Env)
    (status : String → Int) :
    (main argc argv env).2 = 0 ∧
    main argc argv
        { system := fun c => { status := status c, output := (env.system c).output },
          write := env.write }
      = main argc argv env := by
  constructor <;> rfl

/-! ## Runs: what is printed and what is executed -/

theorem env_eq_writableEnv (env : Env) (h : ∀ n b, env.write n b = WriteResult.ok) :
    env = writableEnv env.system := by
  obtain ⟨sys, wr⟩ := env
  have hw : wr = fun _ _ => WriteResult.ok := funext fun n => funext fun b => h n b
  subst hw
  rfl

theorem executed_emit (b : String) (w : World) : executed (emit b w) = executed w := by
  unfold emit
  split
  · rfl
  · simp [executed, List.filterMap_append]

theorem executed_coutFlush (env : Env) (w : World) :
    executed (coutFlush env w) = executed w := by
  unfold coutFlush
  split
  · rfl
  · split <;> rw [executed_emit] <;> rfl

theorem executed_coutPut (s : String) (w : World) :
    executed (coutPut s w) = executed w := by
  unfold coutPut
  split <;> rfl

theorem executed_endl (env : Env) (w : World) : executed (endl env w) = executed w := by
  rw [endl, executed_coutFlush, executed_coutPut]

theorem executed_system (env : Env) (c : String) (w : World) :
    executed (system env c w).1 = executed w ++ [c] := by
  simp [system, executed, List.filterMap_append]

/-- C4, as stated: in a run whose standard output is a full device nothing
is printed, so the run's only action is the call of `system` on the built
command; its actions are not the three that the claim lists. -/
theorem main_trace_fails :
    (main 1 ["to_epub"] fullEnv).1.trace = [Event.system (buildCommand contents)] ∧
    (main 1 ["to_epub"] fullEnv).1.stdout = "" ∧
    (main 1 ["to_epub"] fullEnv).1.trace ≠
      [Event.write "Converting to epub\n",
       Event.write (buildCommand contents ++ "\n"),
       Event.system (buildCommand contents)] := by
  refine ⟨rfl, rfl, ?_⟩
  intro h
  have hl := congrArg List.length h
  have h1 : (main 1 ["to_epub"] fullEnv).1.trace.length = 1 := rfl
  rw [h1] at hl
  exact absurd hl (by decide)

/-- C4, amended: every run in which the writes to the standard output
succeed performs, in this order, the write of the banner line, the write of
the command line, and the call of `system` on the very string that was
printed; nothing of the child's output precedes the two lines, and the
stream is empty and in the good state at the end. -/
theorem main_trace (argc : Int) (argv : List String) (env : Env)
    (h : ∀ n b, env.write n b = WriteResult.ok) :
    (main argc argv env).1.trace =
      [Event.write "Converting to epub\n",
       Event.write (buildCommand contents ++ "\n"),
       Event.system (buildCommand contents)] ∧
    (main argc argv env).1.stdout =
      "Converting to epub\n" ++ (buildCommand contents ++ "\n") ++
        (env.system (buildCommand contents)).output ∧
    (main argc argv env).1.coutBuf = "" ∧
    (main argc argv env).1.coutBad = false := by
  have he := env_eq_writableEnv env h
  generalize env.system = sys at he
  subst he
  exact ⟨rfl, rfl, rfl, rfl⟩

/-- The amended C4 at a run with a writable standard output and a silent
child. -/
theorem main_trace_witness :
    (∀ n b, plainEnv.write n b = WriteResult.ok) ∧
    (main 1 ["to_epub"] plainEnv).1.trace =
      [Event.write "Converting to epub\n",
       Event.write (buildCommand contents ++ "\n"),
       Event.system (buildCommand contents)] :=
  ⟨fun _ _ => rfl, (main_trace 1 ["to_epub"] plainEnv fun _ _ => rfl).1⟩

/-- C5: the manifest has twenty entries, each a non-empty space-free name
followed by one space, in the order splash page, table of contents,
chapters 1 to 16 by increasing number, credits, appendix. -/
theorem contents_shape :
    contents.length = 20 ∧
    (∀ e ∈ contents, EntryWellFormed e) ∧
    contents[0]? = some "splash.html " ∧
    contents[1]? = some "contents.html " ∧
    (∀ i, 2 ≤ i → i ≤ 17 →
      ∃ e, contents[i]? = some e ∧
        ("chapter" ++ Nat.repr (i - 1) ++ "_").data <+: e.data) ∧
    contents[2]? = some "chapter1_introduction.html " ∧
    contents[17]? = some "chapter16_bonus_projects.html " ∧
    contents[18]? = some "credits.html " ∧
    contents[19]? = some "appendix_a_hand_rolled_parser.html " := by
  refine ⟨rfl, by decide, rfl, rfl, ?_, rfl, rfl, rfl, rfl⟩
  intro i h2 h17
  interval_cases i <;> exact ⟨_, rfl, by decide⟩

/-! ## Tokens of the built command -/

theorem splitSpaces_ne_nil (s : List Char) : splitSpaces s ≠ [] := by
  cases s with
  | nil => simp [splitSpaces]
  | cons c cs =>
    unfold splitSpaces
    split
    · simp
    · split <;> simp

theorem splitSpaces_name (name rest : List Char) (h : ' ' ∉ name) :
    splitSpaces (name ++ ' ' :: rest) = name :: splitSpaces rest := by
  induction name with
  | nil => simp [splitSpaces]
  | cons c cs ih =>
    have hc : c ≠ ' ' := fun hc => h (by simp [hc])
    have hcs : ' ' ∉ cs := fun hcs => h (List.mem_cons_of_mem _ hcs)
    have step : splitSpaces (c :: (cs ++ ' ' :: rest))
        = (match splitSpaces (cs ++ ' ' :: rest) with
            | [] => [[c]]
            | t :: ts => (c :: t) :: ts) := by
      rw [splitSpaces, if_neg hc]
    rw [List.cons_append, step, ih hcs]

theorem tokens_name (name rest : List Char) (hne : name ≠ []) (h : ' ' ∉ name) :
    tokens (name ++ ' ' :: rest) = name :: tokens rest := by
  simp [tokens, splitSpaces_name name rest h, hne]

theorem entry_data (e : String) (h : EntryWellFormed e) :
    e.data = entryName e ++ [' '] :=
  (List.dropLast_append_getLast? ' ' h.1).symm

theorem tokens_entries (m : List String) (h : ∀ e ∈ m, EntryWellFormed e)
    (rest : List Char) :
    tokens ((m.map String.data).flatten ++ rest) = m.map entryName ++ tokens rest := by
  induction m with
  | nil => simp
  | cons e es ih =>
    have he : EntryWellFormed e := h e (List.mem_cons_self _ _)
    have hes : ∀ x ∈ es, EntryWellFormed x := fun x hx => h x (List.mem_cons_of_mem _ hx)
    have hd : (List.map String.data (e :: es)).flatten ++ rest
        = entryName e ++ ' ' :: ((es.map String.data).flatten ++ rest) := by
      simp only [List.map_cons, List.flatten_cons]
      rw [entry_data e he]
      simp [List.append_assoc]
    rw [hd, tokens_name _ _ he.2.1 he.2.2, ih hes]
    simp

theorem tokens_cmdInit (rest : List Char) :
    tokens (cmdInit.data ++ rest) = flagTokens ++ tokens rest := by
  have hd : cmdInit.data ++ rest
      = "pandoc".data ++ ' ' :: ("--epub-stylesheet=mystyle.css".data ++ ' ' ::
          ("-S".data ++ ' ' :: ("-o".data ++ ' ' :: ("main.epub".data ++ ' ' :: rest)))) :=
    rfl
  rw [hd, tokens_name _ _ (by decide) (by decide), tokens_name _ _ (by decide) (by decide),
    tokens_name _ _ (by decide) (by decide), tokens_name _ _ (by decide) (by decide),
    tokens_name _ _ (by decide) (by decide)]
  rfl

theorem tokens_buildCommand (m : List String) (h : ∀ e ∈ m, EntryWellFormed e) :
    tokens (buildCommand m).data = flagTokens ++ m.map entryName := by
  have h1 := tokens_entries m h []
  simp only [List.append_nil] at h1
  have h0 : tokens [] = [] := rfl
  rw [h0, List.append_nil] at h1
  rw [buildCommand, accumulate_data, tokens_cmdInit, h1]

/-- C6: for every manifest of well-formed entries the command has as many
filename tokens as the manifest has entries (they are the entries' names, in
order, after the five tokens of the fixed part); for the hard-coded manifest
that number is 20. -/
theorem filename_token_count :
    (∀ m : List String, (∀ e ∈ m, EntryWellFormed e) →
      (tokens (buildCommand m).data).take 5 = flagTokens ∧
      filenameTokens (buildCommand m) = m.map entryName ∧
      (filenameTokens (buildCommand m)).length = m.length) ∧
    (filenameTokens (buildCommand contents)).length = 20 := by
  constructor
  · intro m h
    have ht := tokens_buildCommand m h
    have h5 : flagTokens.length = 5 := rfl
    refine ⟨?_, ?_, ?_⟩
    · rw [ht, List.take_left' h5]
    · rw [filenameTokens, ht, List.drop_left' h5]
    · rw [filenameTokens, ht, List.drop_left' h5, List.length_map]
  · decide

/-- The general part of C6 at a two-entry manifest. -/
theorem filename_token_count_witness :
    (∀ e ∈ ["a.html ", "b.html "], EntryWellFormed e) ∧
    (filenameTokens (buildCommand ["a.html ", "b.html "])).length = 2 :=
  ⟨by decide, (filename_token_count.1 ["a.html ", "b.html "] (by decide)).2.2⟩

/-! ## Shape of the command for the hard-coded manifest -/

theorem noDoubleSpace_spec : ∀ (s : List Char), noDoubleSpace s = true →
    ∀ i, ¬ (s[i]? = some ' ' ∧ s[i + 1]? = some ' ')
  | [], _, i => by simp
  | [_], _, i => by simp
  | a :: b :: rest, h, i => by
    simp only [noDoubleSpace, Bool.and_eq_true, Bool.not_eq_true', Bool.and_eq_false_iff,
      beq_eq_false_iff_ne, ne_eq] at h
    cases i with
    | zero =>
      rintro ⟨ha, hb⟩
      simp only [List.getElem?_cons_zero, List.getElem?_cons_succ, Option.some.injEq,
        Nat.zero_add] at ha hb
      rcases h.1 with h1 | h1
      · exact h1 ha
      · exact h1 hb
    | succ j =>
      simpa only [List.getElem?_cons_succ] using noDoubleSpace_spec (b :: rest) h.2 j

/-- C7: in the command built from the hard-coded manifest the filenames are
separated by single spaces and one space ends the command: no two spaces are
adjacent, the last character is a space and the one before it is not. -/
theorem command_single_spaces :
    (∀ i, ¬ ((buildCommand contents).data[i]? = some ' ' ∧
      (buildCommand contents).data[i + 1]? = some ' ')) ∧
    (buildCommand contents).data.getLast? = some ' ' ∧
    (buildCommand contents).data.dropLast.getLast? ≠ some ' ' ∧
    (buildCommand contents).data.dropLast.getLast? = some 'l' ∧
    (buildCommand contents).data =
      cmdInit.data ++ List.intercalate [' '] (contents.map entryName) ++ [' '] ∧
    (contents.map entryName).length = 20 :=
  ⟨noDoubleSpace_spec _ (by decide), by decide, by decide, by decide, by decide, by decide⟩

/-- C8, as stated: the command does not begin with a fixed part followed by
`splash.html contents.html contents.html`. -/
theorem contract_shape_fails :
    ¬ ("pandoc --epub-stylesheet=mystyle.css -S -o main.epub splash.html contents.html contents.html ".data
          <+: (buildCommand contents).data ∧
        "appendix_a_hand_rolled_parser.html ".data <:+ (buildCommand contents).data) := by
  decide

/-- C8, amended: the one command every run hands to `system` is the built
command; it begins with the fixed part followed by `splash.html`,
`contents.html` and `chapter1_introduction.html` (the second filename token
is `contents.html`, the third `chapter1_introduction.html`) and it ends with
`appendix_a_hand_rolled_parser.html` and a space. -/
theorem contract_shape (argc : Int) (argv : List String) (env : Env) :
    executed (main argc argv env).1 = [buildCommand contents] ∧
    "pandoc --epub-stylesheet=mystyle.css -S -o main.epub splash.html contents.html chapter1_introduction.html ".data
      <+: (buildCommand contents).data ∧
    "appendix_a_hand_rolled_parser.html ".data <:+ (buildCommand contents).data ∧
    (filenameTokens (buildCommand contents))[1]? = some "contents.html".data ∧
    (filenameTokens (buildCommand contents))[2]? = some "chapter1_introduction.html".data := by
  refine ⟨?_, by decide, by decide, by decide, by decide⟩
  have hm : (main argc argv env).1 =
      coutFlush env (system env (c_str (buildCommand contents))
        (endl env (coutPut (buildCommand contents)
          (endl env (coutPut "Converting to epub" World.init))))).1 := rfl
  have hc : c_str (buildCommand contents) = buildCommand contents := by decide
  rw [hm, executed_coutFlush, executed_system, executed_endl, executed_coutPut,
    executed_endl, executed_coutPut, hc]
  rfl

/-- C9, as stated: a run whose standard output is a full device prints
nothing, which is neither what a run with a writable standard output prints
nor the banner line followed by the command line. -/
theorem main_output_fixed_fails :
    ownOutput (main 1 ["to_epub"] fullEnv).1 = "" ∧
    ownOutput (main 1 ["to_epub"] fullEnv).1 ≠ ownOutput (main 1 ["to_epub"] plainEnv).1 ∧
    ownOutput (main 1 ["to_epub"] fullEnv).1 ≠
      "Converting to epub\n" ++ buildCommand contents ++ "\n" := by
  decide

/-- C9, amended: in any two runs in which the writes to the standard output
succeed, whatever the arguments and whatever the interpreter does, the
program itself prints the same bytes: the banner line followed by the
command line. -/
theorem main_output_fixed (argc argc' : Int) (argv argv' : List String) (env env' : Env)
    (h : ∀ n b, env.write n b = WriteResult.ok)
    (h' : ∀ n b, env'.write n b = WriteResult.ok) :
    ownOutput (main argc argv env).1 = ownOutput (main argc' argv' env').1 ∧
    ownOutput (main argc argv env).1 =
      "Converting to epub\n" ++ buildCommand contents ++ "\n" := by
  have he := env_eq_writableEnv env h
  have he' := env_eq_writableEnv env' h'
  generalize env.system = sys at he
  generalize env'.system = sys' at he'
  subst he
  subst he'
  exact ⟨rfl, rfl⟩

/-- The amended C9 at two runs with a writable standard output that differ
in their arguments and in what the interpreter reports and prints. -/
theorem main_output_fixed_witness :
    (∀ n b, plainEnv.write n b = WriteResult.ok) ∧
    (∀ n b, (writableEnv fun _ => { status := 127, output := "sh: pandoc: not found\n" }).write
      n b = WriteResult.ok) ∧
    ownOutput (main 1 ["to_epub"] plainEnv).1 =
      ownOutput (main 3 ["to_epub", "-v", "x"]
        (writableEnv fun _ => { status := 127, output := "sh: pandoc: not found\n" })).1 :=
  ⟨fun _ _ => rfl, fun _ _ => rfl,
    (main_output_fixed 1 3 ["to_epub"] ["to_epub", "-v", "x"] plainEnv
      (writableEnv fun _ => { status := 127, output := "sh: pandoc: not found\n" })
      (fun _ _ => rfl) (fun _ _ => rfl)).1⟩

/-- C10: every character of the command built from the hard-coded manifest
is a lowercase letter, a digit, `S`, or one of `_ . - =` and the space; none
is a shell metacharacter (no allowed character is one), the string has no
NUL so `system` receives all of it, and its space-separated tokens are the
five fixed tokens followed by the twenty names. -/
theorem command_chars_safe :
    (∀ c ∈ (buildCommand contents).data, allowedChar c = true) ∧
    (∀ c ∈ (buildCommand contents).data, c ∉ shellMeta) ∧
    (∀ c ∈ shellMeta, allowedChar c = false) ∧
    c_str (buildCommand contents) = buildCommand contents ∧
    tokens (buildCommand contents).data = flagTokens ++ contents.map entryName := by
  decide

end ToEpub
